import Mathlib

/-!
Verification of the expense-tracker aggregation core.

The embedding models the client-side aggregation and budget logic of the
repository: the period filter, income/expense aggregation and category
grouping of the Dashboard component, the budget-alert computation, and the
budget utilities (getCategorySpending, setBudget) together with the
BudgetManager's budget-list loading and classification.

Strings are modelled as lists of characters (`Str`), so that every string
operation used by the code (split on '-', prefix test, lexicographic
comparison as used by the date-typed database columns, decimal parsing and
formatting) is an executable Lean function that the kernel can evaluate.
Monetary amounts are modelled as exact rationals: the code manipulates
decimal numbers and the specification's statements are about exact decimal
arithmetic.  Calendar dates follow the ECMAScript Date semantics for ISO
"YYYY-MM-DD" / "YYYY-MM" strings interpreted as UTC calendar dates (the
specification's recommended policy): parsing validates month and day
ranges, and Date values are compared through their civil day numbers.
Store calls that can fail are modelled with `Except`.
-/

namespace ExpenseTracker

/-- Strings as character lists, so all operations compute in the kernel. -/
abbrev Str := List Char

/-- Coerce a Lean string literal to the character-list representation. -/
def strOfString (s : String) : Str := s.data

/-- JavaScript `s.split('-')`: split at every dash, keeping empty pieces. -/
def splitOnDash (s : Str) : List Str :=
  match s with
  | [] => [[]]
  | c :: rest =>
    let r := splitOnDash rest
    if c = '-' then [] :: r
    else
      match r with
      | [] => [[c]]
      | p :: ps => (c :: p) :: ps

/-- JavaScript `s.startsWith(pre)`. -/
def strStartsWith (s pre : Str) : Bool :=
  match pre, s with
  | [], _ => true
  | _ :: _, [] => false
  | p :: ps, c :: cs => p = c && strStartsWith cs ps

/-- Code-point comparison of characters. -/
def charLt (a b : Char) : Bool := a.val < b.val

/-- Lexicographic strict order on strings; on zero-padded ISO date strings
this coincides with chronological order, which is how the date-typed
database columns compare in the `gte` / `lt` query filters. -/
def strLt (a b : Str) : Bool :=
  match a, b with
  | [], [] => false
  | [], _ :: _ => true
  | _ :: _, [] => false
  | x :: xs, y :: ys => charLt x y || (x = y && strLt xs ys)

/-- Lexicographic `≤` on strings. -/
def strLe (a b : Str) : Bool := !strLt b a

/-- Decimal value of a digit string (the numeric reading `Number` / the ISO
date parser perform on each date field). -/
def toNatD (s : Str) : Nat := s.foldl (fun acc c => acc * 10 + (c.toNat - 48)) 0

/-- Every character is a decimal digit. -/
def allDigits (s : Str) : Bool := s.all (fun c => '0' ≤ c && c ≤ '9')

/-- The character of a decimal digit. -/
def digitChar (d : Nat) : Char := Char.ofNat (48 + d % 10)

/-- Two-digit zero-padded decimal rendering (month and day fields of
`toISOString`). -/
def fmtNat2 (n : Nat) : Str := [digitChar (n / 10 % 10), digitChar (n % 10)]

/-- Four-digit zero-padded decimal rendering (year field of `toISOString`). -/
def fmtNat4 (n : Nat) : Str :=
  [digitChar (n / 1000 % 10), digitChar (n / 100 % 10), digitChar (n / 10 % 10),
    digitChar (n % 10)]

/-- The date part of `toISOString`: "YYYY-MM-DD". -/
def fmtDate (y m d : Nat) : Str := fmtNat4 y ++ '-' :: (fmtNat2 m ++ '-' :: fmtNat2 d)

/-- Gregorian leap-year test. -/
def isLeap (y : Nat) : Bool := y % 4 == 0 && (y % 100 != 0 || y % 400 == 0)

/-- Number of days of month `m` of year `y`. -/
def daysInMonth (y m : Nat) : Nat :=
  if m = 2 then (if isLeap y then 29 else 28)
  else if m = 4 || m = 6 || m = 9 || m = 11 then 30
  else 31

/-- ECMAScript ISO date-string parsing, as performed by `new Date(s)` on the
date-only forms "YYYY-MM-DD", "YYYY-MM" and "YYYY": fixed-width decimal
fields, month in 1..12, day within the month's length; any other string is
an Invalid Date (`none`).  Omitted month and day default to 1. -/
def parseDate (s : Str) : Option (Nat × Nat × Nat) :=
  match splitOnDash s with
  | [y] =>
    if y.length = 4 && allDigits y then some (toNatD y, 1, 1) else none
  | [y, m] =>
    if y.length = 4 && allDigits y && m.length = 2 && allDigits m &&
        1 ≤ toNatD m && toNatD m ≤ 12 then
      some (toNatD y, toNatD m, 1)
    else none
  | [y, m, d] =>
    if y.length = 4 && allDigits y && m.length = 2 && allDigits m &&
        d.length = 2 && allDigits d && 1 ≤ toNatD m && toNatD m ≤ 12 &&
        1 ≤ toNatD d && toNatD d ≤ daysInMonth (toNatD y) (toNatD m) then
      some (toNatD y, toNatD m, toNatD d)
    else none
  | _ => none

/-- Civil day number of a calendar date (days since 0000-03-01, proleptic
Gregorian).  Comparing two Date values compares their time values, and for
dates parsed at UTC midnight that is exactly comparing these day numbers. -/
def dayNumber (y m d : Nat) : Int :=
  let ys : Int := if m ≤ 2 then (y : Int) - 1 else (y : Int)
  let mp : Int := ((m : Int) + 9) % 12
  let doy : Int := (153 * mp + 2).fdiv 5 + (d : Int) - 1
  365 * ys + ys.fdiv 4 - ys.fdiv 100 + ys.fdiv 400 + doy

/-- `Date.prototype.getDay`: weekday index with Sunday = 0. -/
def weekdayOf (y m d : Nat) : Int := (dayNumber y m d + 3) % 7

/-! ## Data model (src/src/lib/supabase.ts, src/unnamed/part_003) -/

/-- Transaction and category kind. -/
inductive TxnType
| income
| expense
deriving DecidableEq, BEq

/-- A category row (fields the aggregation core reads). -/
structure Category where
  id : Str
  name : Str
  type : TxnType
  icon : Str
  color : Str
deriving DecidableEq

/-- A transaction row joined with its category (`TransactionWithCategory`);
`categories` is the joined row, absent when the join found nothing. -/
structure Transaction where
  id : Str
  type : TxnType
  amount : ℚ
  category_id : Str
  date : Str
  categories : Option Category
deriving DecidableEq

/-- A budget row. -/
structure Budget where
  id : Str
  category_id : Str
  limit_amount : ℚ
  month : Str
  created_at : Str
  updated_at : Str
deriving DecidableEq

/-- A store failure surfaced by a supabase call. -/
inductive StoreErr
| fail
deriving DecidableEq

/-! ## Dashboard (src/unnamed/part_000) -/

/-- The reporting window size. -/
inductive TimeView
| day
| week
| month
deriving DecidableEq

/-- The "YYYY-MM" key the month branch builds: first two pieces of
`selectedMonth.split('-')` joined by a dash (a missing second piece renders
as JavaScript's "undefined"). -/
def monthKey (selectedMonth : Str) : Str :=
  let parts := splitOnDash selectedMonth
  parts.getD 0 [] ++ '-' :: parts.getD 1 (strOfString "undefined")

/-- The period predicate of `calculateStats` / `getExpensesByCategory`
(lines 35-55 and 103-123 of the Dashboard): day keeps an exact date match,
week keeps dates between the reference date's start of week (Sunday) and
start + 6 inclusive, month keeps dates starting with the "YYYY-MM" key.
An unparseable reference or transaction date makes the week comparisons
false, as comparisons with an Invalid Date are. -/
def periodPred (selectedMonth : Str) (timeView : TimeView) (t : Transaction) : Bool :=
  match timeView with
  | .day => t.date == selectedMonth
  | .week =>
    match parseDate selectedMonth with
    | none => false
    | some (y, m, d) =>
      let start := dayNumber y m d - weekdayOf y m d
      let stop := start + 6
      match parseDate t.date with
      | none => false
      | some (ty, tm, td) =>
        decide (start ≤ dayNumber ty tm td) && decide (dayNumber ty tm td ≤ stop)
  | .month => strStartsWith t.date (monthKey selectedMonth)

/-- The filtering step of `calculateStats`. -/
def filterByPeriod (transactions : List Transaction) (selectedMonth : Str)
    (timeView : TimeView) : List Transaction :=
  transactions.filter (periodPred selectedMonth timeView)

/-- `reduce((sum, t) => sum + Number(t.amount), 0)`. -/
def reduceAmounts (l : List Transaction) : ℚ :=
  l.foldl (fun sum t => sum + t.amount) 0

/-- The income / expenses / net totals. -/
structure Stats where
  income : ℚ
  expenses : ℚ
  net : ℚ
deriving DecidableEq

/-- The totals `calculateStats` derives from the filtered transactions
(lines 57-69): income and expense sums and their difference. -/
def monthlyStatsOf (filtered : List Transaction) : Stats :=
  let income := reduceAmounts (filtered.filter (fun t => t.type == TxnType.income))
  let expenses := reduceAmounts (filtered.filter (fun t => t.type == TxnType.expense))
  { income := income, expenses := expenses, net := income - expenses }

/-- One budget alert as pushed by `checkBudgetAlerts`. -/
structure Alert where
  categoryName : Str
  spent : ℚ
  limit : ℚ
  percentage : ℚ
deriving DecidableEq

/-- `categories.find(c => c.id === id)?.name || 'Unknown'`. -/
def categoryNameOf (categories : List Category) (categoryId : Str) : Str :=
  match categories.find? (fun c => c.id == categoryId) with
  | some c => if c.name.isEmpty then strOfString "Unknown" else c.name
  | none => strOfString "Unknown"

/-- The alert object pushed for a budget (lines 86-92). -/
def alertOf (categories : List Category) (b : Budget) (spent : ℚ) : Alert :=
  { categoryName := categoryNameOf categories b.category_id
    spent := spent
    limit := b.limit_amount
    percentage := spent / b.limit_amount * 100 }

/-- One iteration of the `checkBudgetAlerts` loop (lines 81-94): fetch the
budget's category spend — a store failure aborts the whole loop — and push
an alert when spent / limit * 100 ≥ 80. -/
def alertStep (spending : Str → Except StoreErr ℚ) (categories : List Category)
    (alerts : List Alert) (b : Budget) : Except StoreErr (List Alert) := do
  let spent ← spending b.category_id
  let percentage := spent / b.limit_amount * 100
  if 80 ≤ percentage then
    pure (alerts ++ [alertOf categories b spent])
  else
    pure alerts

/-- `checkBudgetAlerts` (lines 76-100): run the alert loop over the month's
budgets, starting from the empty alert list. -/
def checkBudgetAlerts (budgets : List Budget) (spending : Str → Except StoreErr ℚ)
    (categories : List Category) : Except StoreErr (List Alert) :=
  budgets.foldlM (alertStep spending categories) []

/-- The Dashboard state touched by `calculateStats`. -/
structure DashboardState where
  monthlyStats : Stats
  budgetAlerts : List Alert
deriving DecidableEq

/-- `calculateStats` (lines 34-74): recompute the totals from the period
filter, then — only in the month view — recompute the budget alerts, the
previous alerts surviving a store failure (the catch branch). -/
def calculateStats (st : DashboardState) (transactions : List Transaction)
    (selectedMonth : Str) (timeView : TimeView)
    (budgetsRes : Except StoreErr (List Budget))
    (spending : Str → Except StoreErr ℚ) (categories : List Category) :
    DashboardState :=
  let filtered := filterByPeriod transactions selectedMonth timeView
  let st1 := { st with monthlyStats := monthlyStatsOf filtered }
  match timeView with
  | .month =>
    match budgetsRes.bind (fun budgets => checkBudgetAlerts budgets spending categories) with
    | .ok alerts => { st1 with budgetAlerts := alerts }
    | .error _ => st1
  | _ => st1

/-- The per-category accumulator entry of `getExpensesByCategory`. -/
structure CategoryGroup where
  amount : ℚ
  color : Str
  icon : Str
deriving DecidableEq

/-- `trans.categories?.name || 'Other'`. -/
def groupCategoryName (t : Transaction) : Str :=
  match t.categories with
  | some c => if c.name.isEmpty then strOfString "Other" else c.name
  | none => strOfString "Other"

/-- `trans.categories?.color || '#6B7280'`. -/
def groupColor (t : Transaction) : Str :=
  match t.categories with
  | some c => if c.color.isEmpty then strOfString "#6B7280" else c.color
  | none => strOfString "#6B7280"

/-- `trans.categories?.icon || 'Package'`. -/
def groupIcon (t : Transaction) : Str :=
  match t.categories with
  | some c => if c.icon.isEmpty then strOfString "Package" else c.icon
  | none => strOfString "Package"

/-- `acc[name].amount += amt` on the accumulator object: add to the (unique)
binding of the key. -/
def bumpGroup : List (Str × CategoryGroup) → Str → ℚ → List (Str × CategoryGroup)
  | [], _, _ => []
  | (k, g) :: rest, name, amt =>
    if k == name then (k, { g with amount := g.amount + amt }) :: rest
    else (k, g) :: bumpGroup rest name amt

/-- One step of the grouping reduce (lines 125-139): create the key's entry
(amount 0, first-seen colour and icon) when absent, then add the amount. -/
def groupStep (acc : List (Str × CategoryGroup)) (t : Transaction) :
    List (Str × CategoryGroup) :=
  let name := groupCategoryName t
  if (acc.find? (fun p => p.1 == name)).isSome then
    bumpGroup acc name t.amount
  else
    bumpGroup (acc ++ [(name, { amount := 0, color := groupColor t, icon := groupIcon t })])
      name t.amount

/-- One rendered expense group. -/
structure ExpenseGroup where
  name : Str
  amount : ℚ
  color : Str
  icon : Str
deriving DecidableEq

/-- The grouping of `getExpensesByCategory` (lines 125-145): reduce into the
accumulator and flatten its entries. -/
def groupExpensesByCategory (l : List Transaction) : List ExpenseGroup :=
  (l.foldl groupStep []).map
    (fun p => { name := p.1, amount := p.2.amount, color := p.2.color, icon := p.2.icon })

/-- `getExpensesByCategory` (lines 102-145): period filter restricted to
expense transactions, then the grouping. -/
def getExpensesByCategory (transactions : List Transaction) (selectedMonth : Str)
    (timeView : TimeView) : List ExpenseGroup :=
  groupExpensesByCategory
    (transactions.filter (fun t => periodPred selectedMonth timeView t &&
      t.type == TxnType.expense))

/-! ## Budget utilities (src/src/lib/utils.ts) -/

/-- `new Date(month).setMonth(getMonth() + 1)` on a parsed (y, m, d):
advance the month with year rollover, then normalise a day past the new
month's end into the following month (for d ≤ 31 one carry step is the
most JavaScript's normalisation can need). -/
def addOneMonth (y m d : Nat) : Nat × Nat × Nat :=
  let y1 := if m = 12 then y + 1 else y
  let m1 := if m = 12 then 1 else m + 1
  if daysInMonth y1 m1 < d then
    if m1 = 12 then (y1 + 1, 1, d - daysInMonth y1 m1)
    else (y1, m1 + 1, d - daysInMonth y1 m1)
  else (y1, m1, d)

/-- `getCategorySpending(categoryId, month)` (utils.ts lines 151-166): sum
the amounts of the expense transactions of the category whose date is ≥ the
month string and < the date one calendar month later (`.lt`, so the upper
end is excluded).  An unparseable month makes `toISOString` throw, so the
call fails (`none`). -/
def getCategorySpending (txns : List Transaction) (categoryId month : Str) :
    Option ℚ :=
  match parseDate month with
  | none => none
  | some (y, m, d) =>
    let next := addOneMonth y m d
    let endDateStr := fmtDate next.1 next.2.1 next.2.2
    some (reduceAmounts (txns.filter (fun t =>
      t.category_id == categoryId && t.type == TxnType.expense &&
      strLe month t.date && strLt t.date endDateStr)))

/-- `setBudget(categoryId, limitAmount, month)` (utils.ts lines 100-128) on
the budgets table: look up a row with the pair (`maybeSingle`, faithful
while the pair matches at most one row); update that row's `limit_amount`
and `updated_at` by its id when found, append a fresh row otherwise. -/
def setBudget (db : List Budget) (categoryId : Str) (limitAmount : ℚ)
    (month : Str) (now : Str) (newId : Str) : List Budget :=
  match db.find? (fun b => b.category_id == categoryId && b.month == month) with
  | some existing =>
    db.map (fun b =>
      if b.id == existing.id then
        { b with limit_amount := limitAmount, updated_at := now }
      else b)
  | none =>
    db ++ [{ id := newId
             category_id := categoryId
             limit_amount := limitAmount
             month := month
             created_at := now
             updated_at := now }]

/-! ## BudgetManager (src/src/components/BudgetManager.tsx) -/

/-- `categories.find(c => c.id === id)?.color || '#6B7280'`. -/
def categoryColorOf (categories : List Category) (categoryId : Str) : Str :=
  match categories.find? (fun c => c.id == categoryId) with
  | some c => if c.color.isEmpty then strOfString "#6B7280" else c.color
  | none => strOfString "#6B7280"

/-- `categories.find(c => c.id === id)?.icon || 'Package'`. -/
def categoryIconOf (categories : List Category) (categoryId : Str) : Str :=
  match categories.find? (fun c => c.id == categoryId) with
  | some c => if c.icon.isEmpty then strOfString "Package" else c.icon
  | none => strOfString "Package"

/-- A budget joined with its computed spend and category display fields. -/
structure BudgetWithSpending extends Budget where
  spent : ℚ
  categoryName : Str
  categoryColor : Str
  categoryIcon : Str
deriving DecidableEq

/-- The `Promise.all(data.map(...))` of `loadBudgets` (lines 37-49): fetch
every budget's spend and join the category display fields; one failed spend
fetch rejects the whole batch. -/
def budgetsWithSpending (budgets : List Budget)
    (spending : Str → Except StoreErr ℚ) (categories : List Category) :
    Except StoreErr (List BudgetWithSpending) :=
  budgets.mapM (fun b =>
    (spending b.category_id).map (fun spent =>
      { toBudget := b
        spent := spent
        categoryName := categoryNameOf categories b.category_id
        categoryColor := categoryColorOf categories b.category_id
        categoryIcon := categoryIconOf categories b.category_id }))

/-- `loadBudgets` (lines 33-56): the displayed budget list after a load —
the freshly joined list when the budget fetch and every spend fetch
succeed, the previous list otherwise (the catch branch only records an
error message). -/
def loadBudgets (prev : List BudgetWithSpending)
    (budgetsRes : Except StoreErr (List Budget))
    (spending : Str → Except StoreErr ℚ) (categories : List Category) :
    List BudgetWithSpending :=
  match budgetsRes.bind (fun data => budgetsWithSpending data spending categories) with
  | .ok l => l
  | .error _ => prev

/-- The classification a budget row is rendered with. -/
inductive BudgetClass
| normal
| warning
| overBudget (overBy : ℚ)
deriving DecidableEq

/-- The rendering classification (lines 190-192 and 252): percentage =
spent / limit * 100; over-budget when percentage > 100, with the over
amount spent − limit; warning when percentage ≥ 80; normal otherwise. -/
def classifyBudget (spent limit_amount : ℚ) : BudgetClass :=
  let percentage := spent / limit_amount * 100
  let isOverBudget := decide (100 < percentage)
  let isWarning := decide (80 ≤ percentage)
  if isOverBudget then BudgetClass.overBudget (spent - limit_amount)
  else if isWarning then BudgetClass.warning
  else BudgetClass.normal

/-! ## Sample data used to instantiate the theorems on concrete inputs -/

/-- A sample expense category. -/
def catFood : Category :=
  { id := strOfString "cat-food"
    name := strOfString "Food"
    type := TxnType.expense
    icon := strOfString "Utensils"
    color := strOfString "#F87171" }

/-- An expense on 2024-06-08 (the Saturday before the sample week). -/
def txnJun08 : Transaction :=
  { id := strOfString "t-0608"
    type := TxnType.expense
    amount := 2
    category_id := strOfString "cat-food"
    date := strOfString "2024-06-08"
    categories := some catFood }

/-- An expense on 2024-06-09 (the Sunday opening the sample week). -/
def txnJun09 : Transaction :=
  { id := strOfString "t-0609"
    type := TxnType.expense
    amount := 1
    category_id := strOfString "cat-food"
    date := strOfString "2024-06-09"
    categories := some catFood }

/-- An expense on 2024-06-15. -/
def txnJun15 : Transaction :=
  { id := strOfString "t-0615"
    type := TxnType.expense
    amount := 40
    category_id := strOfString "cat-food"
    date := strOfString "2024-06-15"
    categories := some catFood }

/-- An expense on 2024-07-01, the excluded first day of the next month. -/
def txnJul01 : Transaction :=
  { id := strOfString "t-0701"
    type := TxnType.expense
    amount := 7
    category_id := strOfString "cat-food"
    date := strOfString "2024-07-01"
    categories := some catFood }

/-- An income transaction in June 2024. -/
def txnJunIncome : Transaction :=
  { id := strOfString "t-0602"
    type := TxnType.income
    amount := 1000
    category_id := strOfString "cat-salary"
    date := strOfString "2024-06-02"
    categories := none }

/-- A sample budget of 100 on the food category for June 2024. -/
def budFood : Budget :=
  { id := strOfString "b-1"
    category_id := strOfString "cat-food"
    limit_amount := 100
    month := strOfString "2024-06-01"
    created_at := strOfString "t0"
    updated_at := strOfString "t0" }

/-- A sample budget of 200 on a rent category for June 2024. -/
def budRent : Budget :=
  { id := strOfString "b-2"
    category_id := strOfString "cat-rent"
    limit_amount := 200
    month := strOfString "2024-06-01"
    created_at := strOfString "t0"
    updated_at := strOfString "t0" }

/-- A sample alert sitting in the Dashboard state. -/
def sampleAlert : Alert :=
  { categoryName := strOfString "Food"
    spent := 85
    limit := 100
    percentage := 85 }

/-- A sample Dashboard state holding one alert. -/
def sampleState : DashboardState :=
  { monthlyStats := { income := 0, expenses := 0, net := 0 }
    budgetAlerts := [sampleAlert] }

/-- A sample displayed budget row. -/
def sampleBws : BudgetWithSpending :=
  { toBudget := budFood
    spent := 85
    categoryName := strOfString "Food"
    categoryColor := strOfString "#F87171"
    categoryIcon := strOfString "Utensils" }

/-! ## Helper lemmas -/

/-- The running reduce of amounts is the sum of the mapped amounts. -/
theorem reduceAmounts_eq (l : List Transaction) :
    reduceAmounts l = (l.map (fun t => t.amount)).sum := by
  suffices h : ∀ a : ℚ, l.foldl (fun sum t => sum + t.amount) a =
      a + (l.map (fun t => t.amount)).sum by
    simpa [reduceAmounts] using h 0
  induction l with
  | nil => intro a; simp
  | cons t ts ih => intro a; simp [ih, add_assoc]

/-! ## Claim theorems -/

/-- Claim C1: for a budget with positive limit and percentage
pct = spent / limit * 100, the rendered classification is normal exactly
when pct < 80, warning exactly when 80 ≤ pct ≤ 100 (pct = 100 included),
and over-budget exactly when pct > 100, the reported over amount being
spent − limit. -/
theorem classifyBudget_boundaries (spent limit_amount : ℚ)
    (_hlim : 0 < limit_amount) :
    (classifyBudget spent limit_amount = BudgetClass.normal ↔
      spent / limit_amount * 100 < 80) ∧
    (classifyBudget spent limit_amount = BudgetClass.warning ↔
      80 ≤ spent / limit_amount * 100 ∧ spent / limit_amount * 100 ≤ 100) ∧
    (classifyBudget spent limit_amount = BudgetClass.overBudget (spent - limit_amount) ↔
      100 < spent / limit_amount * 100) := by
  by_cases h1 : (100 : ℚ) < spent / limit_amount * 100 <;>
    by_cases h2 : (80 : ℚ) ≤ spent / limit_amount * 100 <;>
    simp [classifyBudget, h1, h2] <;> linarith

/-- Witness for C1 at spent = 85, limit = 100: the classification is
warning and pct = 85 satisfies 80 ≤ 85 ≤ 100. -/
theorem classifyBudget_boundaries_witness :
    classifyBudget 85 100 = BudgetClass.warning :=
  ((classifyBudget_boundaries 85 100 (by norm_num)).2.1).mpr (by norm_num)

/-- Claim C5: the aggregate totals — income is the sum of the amounts of
the income transactions, expenses the sum of the amounts of the expense
transactions, and net is exactly income − expenses. -/
theorem monthlyStatsOf_spec (l : List Transaction) :
    (monthlyStatsOf l).income =
      ((l.filter (fun t => t.type == TxnType.income)).map (fun t => t.amount)).sum ∧
    (monthlyStatsOf l).expenses =
      ((l.filter (fun t => t.type == TxnType.expense)).map (fun t => t.amount)).sum ∧
    (monthlyStatsOf l).net = (monthlyStatsOf l).income - (monthlyStatsOf l).expenses := by
  simp [monthlyStatsOf, reduceAmounts_eq]

/-- Claim C10: outside the month view the stats step only replaces the
totals — for day or week granularity the budget-alert list is left exactly
as it was, and the totals become the aggregate of the period filter. -/
theorem calculateStats_frame (st : DashboardState) (transactions : List Transaction)
    (selectedMonth : Str) (tv : TimeView) (budgetsRes : Except StoreErr (List Budget))
    (spending : Str → Except StoreErr ℚ) (categories : List Category)
    (h : tv = TimeView.day ∨ tv = TimeView.week) :
    (calculateStats st transactions selectedMonth tv budgetsRes spending
        categories).budgetAlerts = st.budgetAlerts ∧
    (calculateStats st transactions selectedMonth tv budgetsRes spending
        categories).monthlyStats =
      monthlyStatsOf (filterByPeriod transactions selectedMonth tv) := by
  rcases h with h | h <;> subst h <;> simp [calculateStats]

/-- Witness for C10 in the day view on the sample state: the stored alert
list survives the stats step untouched. -/
theorem calculateStats_frame_witness :
    (calculateStats sampleState [txnJun09] (strOfString "2024-06-09") TimeView.day
        (Except.ok [budFood]) (fun _ => Except.ok 0) [catFood]).budgetAlerts =
      sampleState.budgetAlerts ∧
    (calculateStats sampleState [txnJun09] (strOfString "2024-06-09") TimeView.day
        (Except.ok [budFood]) (fun _ => Except.ok 0) [catFood]).monthlyStats =
      monthlyStatsOf (filterByPeriod [txnJun09] (strOfString "2024-06-09") TimeView.day) :=
  calculateStats_frame sampleState [txnJun09] (strOfString "2024-06-09") TimeView.day
    (Except.ok [budFood]) (fun _ => Except.ok 0) [catFood] (Or.inl rfl)

/-- Claim C3: with a reference date splitting into year and month pieces,
the month filter returns exactly the transactions whose date string starts
with the "YYYY-MM" key. -/
theorem filterByPeriod_month (ts : List Transaction) (sel y mo : Str) (rest : List Str)
    (h : splitOnDash sel = y :: mo :: rest) :
    filterByPeriod ts sel TimeView.month =
      ts.filter (fun t => strStartsWith t.date (y ++ '-' :: mo)) := by
  unfold filterByPeriod
  refine List.filter_congr ?_
  intro t _
  simp [periodPred, monthKey, h]

/-- Witness for C3 at reference date 2024-06-15: the key is "2024-06", and
the filter keeps the June transaction and drops the July one. -/
theorem filterByPeriod_month_witness :
    splitOnDash (strOfString "2024-06-15") =
      [strOfString "2024", strOfString "06", strOfString "15"] ∧
    filterByPeriod [txnJun15, txnJul01] (strOfString "2024-06-15") TimeView.month =
      [txnJun15] := by
  refine ⟨by decide, ?_⟩
  rw [filterByPeriod_month [txnJun15, txnJul01] (strOfString "2024-06-15")
    (strOfString "2024") (strOfString "06") [strOfString "15"] (by decide)]
  decide

/-- Claim C4: with a parseable reference date, the week filter keeps exactly
the transactions whose date's day number lies between the reference date
minus its weekday index (the Sunday opening the week) and that Sunday plus
six days, both ends included. -/
theorem filterByPeriod_week (ts : List Transaction) (sel : Str) (y m d : Nat)
    (h : parseDate sel = some (y, m, d)) :
    filterByPeriod ts sel TimeView.week =
      ts.filter (fun t =>
        match parseDate t.date with
        | none => false
        | some (ty, tm, td) =>
          decide (dayNumber y m d - weekdayOf y m d ≤ dayNumber ty tm td) &&
          decide (dayNumber ty tm td ≤ dayNumber y m d - weekdayOf y m d + 6)) := by
  unfold filterByPeriod
  refine List.filter_congr ?_
  intro t _
  simp [periodPred, h]

/-- Witness for C4 at reference date 2024-06-12 (a Wednesday): the range is
2024-06-09 (Sunday) through 2024-06-15 (Saturday), a transaction dated
2024-06-09 is kept and one dated 2024-06-08 is dropped. -/
theorem filterByPeriod_week_witness :
    parseDate (strOfString "2024-06-12") = some (2024, 6, 12) ∧
    dayNumber 2024 6 12 - weekdayOf 2024 6 12 = dayNumber 2024 6 9 ∧
    dayNumber 2024 6 12 - weekdayOf 2024 6 12 + 6 = dayNumber 2024 6 15 ∧
    filterByPeriod [txnJun09, txnJun08] (strOfString "2024-06-12") TimeView.week =
      [txnJun09] := by
  refine ⟨by decide, by decide, by decide, ?_⟩
  rw [filterByPeriod_week [txnJun09, txnJun08] (strOfString "2024-06-12") 2024 6 12
    (by decide)]
  decide

/-- The alert loop with an always-succeeding spend fetch is a pure filter
and map over the budgets, for any starting accumulator. -/
theorem alertStep_foldlM (f : Str → ℚ) (categories : List Category) :
    ∀ (budgets : List Budget) (acc : List Alert),
      List.foldlM (alertStep (fun cid => Except.ok (f cid)) categories) acc budgets =
        Except.ok (acc ++ (budgets.filter
            (fun b => decide (80 ≤ f b.category_id / b.limit_amount * 100))).map
          (fun b => alertOf categories b (f b.category_id))) := by
  intro budgets
  induction budgets with
  | nil => intro acc; simp [pure, Except.pure]
  | cons b bs ih =>
    intro acc
    by_cases hb : (80 : ℚ) ≤ f b.category_id / b.limit_amount * 100 <;>
      simp [List.foldlM_cons, alertStep, hb, ih, List.filter_cons,
        Bind.bind, Except.bind, pure, Except.pure]

/-- Claim C2: over budgets with positive limits and a spend function f,
`checkBudgetAlerts` succeeds with exactly one alert per budget whose
percentage f(category) / limit * 100 reaches 80, and no alert for any
budget below 80. -/
theorem checkBudgetAlerts_spec (budgets : List Budget) (f : Str → ℚ)
    (categories : List Category) (_hpos : ∀ b ∈ budgets, 0 < b.limit_amount) :
    checkBudgetAlerts budgets (fun cid => Except.ok (f cid)) categories =
      Except.ok ((budgets.filter
          (fun b => decide (80 ≤ f b.category_id / b.limit_amount * 100))).map
        (fun b => alertOf categories b (f b.category_id))) := by
  simpa [checkBudgetAlerts] using alertStep_foldlM f categories budgets []

/-- Witness for C2: one budget at 85% and one at 50% — exactly the first
produces an alert. -/
theorem checkBudgetAlerts_spec_witness :
    checkBudgetAlerts [budFood, budRent]
        (fun cid => Except.ok (if cid == strOfString "cat-food" then (85 : ℚ) else 100))
        [catFood] =
      Except.ok [alertOf [catFood] budFood 85] := by
  have h := checkBudgetAlerts_spec [budFood, budRent]
    (fun cid => if cid == strOfString "cat-food" then (85 : ℚ) else 100) [catFood]
    (by
      intro b hb
      rcases List.mem_cons.mp hb with rfl | hb
      · norm_num [budFood]
      · rcases List.mem_cons.mp hb with rfl | hb
        · norm_num [budRent]
        · simp at hb)
  refine h.trans ?_
  have hrent : (strOfString "cat-rent" = strOfString "cat-food") = False := by decide
  norm_num [budFood, budRent, List.filter_cons, hrent]

/-- Whether a key is found in the concatenation of two accumulators. -/
theorem find?_append_isSome {α : Type} (p : α → Bool) :
    ∀ l₁ l₂ : List α,
      ((l₁ ++ l₂).find? p).isSome = (((l₁.find? p).isSome) || ((l₂.find? p).isSome)) := by
  intro l₁ l₂
  induction l₁ with
  | nil => simp
  | cons x xs ih =>
    cases hx : p x <;> simp [List.find?_cons, hx, ih]

/-- Adding to a key's entry grows the accumulator's amount total by the
added amount exactly when the key is present. -/
theorem bumpGroup_sum (name : Str) (amt : ℚ) :
    ∀ acc : List (Str × CategoryGroup),
      ((bumpGroup acc name amt).map (fun p => p.2.amount)).sum =
        ((acc.map (fun p => p.2.amount)).sum +
          if (acc.find? (fun p => p.1 == name)).isSome then amt else 0) := by
  intro acc
  induction acc with
  | nil => simp [bumpGroup]
  | cons p rest ih =>
    obtain ⟨k, g⟩ := p
    by_cases hk : (k == name) = true
    · simp [bumpGroup, hk, List.find?_cons_of_pos]
      ring
    · have hk' : (k == name) = false := by simpa using hk
      have hfind : ((k, g) :: rest).find? (fun p => p.1 == name) =
          rest.find? (fun p => p.1 == name) := List.find?_cons_of_neg _ (by simp [hk'])
      simp only [bumpGroup, hk', Bool.false_eq_true, if_false, List.map_cons, List.sum_cons,
        ih, hfind]
      ring

/-- One grouping step grows the amount total by the transaction's amount. -/
theorem groupStep_sum (acc : List (Str × CategoryGroup)) (t : Transaction) :
    ((groupStep acc t).map (fun p => p.2.amount)).sum =
      (acc.map (fun p => p.2.amount)).sum + t.amount := by
  unfold groupStep
  by_cases hf : ((acc.find? (fun p => p.1 == groupCategoryName t)).isSome) = true
  · simp [hf, bumpGroup_sum]
  · simp only [Bool.not_eq_true] at hf
    simp [hf, bumpGroup_sum, find?_append_isSome, List.find?_cons]

/-- The grouping fold adds the transactions' amounts to the accumulator's
amount total. -/
theorem groupFold_sum :
    ∀ (l : List Transaction) (acc : List (Str × CategoryGroup)),
      ((l.foldl groupStep acc).map (fun p => p.2.amount)).sum =
        (acc.map (fun p => p.2.amount)).sum + (l.map (fun t => t.amount)).sum := by
  intro l
  induction l with
  | nil => intro acc; simp
  | cons t ts ih => intro acc; simp [List.foldl_cons, ih, groupStep_sum, add_assoc]

/-- Claim C6: the category grouping is sum-preserving — the amounts of the
produced groups add up to exactly the amounts of the input transactions. -/
theorem groupExpensesByCategory_sum (l : List Transaction) :
    ((groupExpensesByCategory l).map (fun e => e.amount)).sum =
      (l.map (fun t => t.amount)).sum := by
  have h := groupFold_sum l []
  simpa [groupExpensesByCategory, List.map_map, Function.comp] using h

/-- Every month has at least one day. -/
theorem one_le_daysInMonth (y m : Nat) : 1 ≤ daysInMonth y m := by
  unfold daysInMonth
  split_ifs <;> norm_num

/-- Adding one calendar month to the first of a month lands on the first of
the next month, with December rolling into the next year. -/
theorem addOneMonth_first (y m : Nat) :
    addOneMonth y m 1 =
      (if m = 12 then y + 1 else y, if m = 12 then 1 else m + 1, 1) := by
  unfold addOneMonth
  have h := one_le_daysInMonth (if m = 12 then y + 1 else y) (if m = 12 then 1 else m + 1)
  rw [if_neg (by omega)]

/-- Claim C7: for a month string parsing as the first of month (y, m), the
computed category spend is the sum of the amounts of the expense
transactions of the category whose date is at least the month string and
strictly before the first day of the next month — the next month's first
day itself being excluded. -/
theorem getCategorySpending_spec (txns : List Transaction) (cid month : Str)
    (y m : Nat) (h : parseDate month = some (y, m, 1)) :
    getCategorySpending txns cid month =
      some (reduceAmounts (txns.filter (fun t =>
        t.category_id == cid && t.type == TxnType.expense &&
        strLe month t.date &&
        strLt t.date
          (fmtDate (if m = 12 then y + 1 else y) (if m = 12 then 1 else m + 1) 1)))) := by
  simp [getCategorySpending, h, addOneMonth_first]

/-- Witness for C7 for June 2024: the June 15 expense of 40 counts, the
July 1 expense is excluded by the exclusive upper bound, and the income
transaction does not count. -/
theorem getCategorySpending_spec_witness :
    parseDate (strOfString "2024-06-01") = some (2024, 6, 1) ∧
    getCategorySpending [txnJun15, txnJul01, txnJunIncome] (strOfString "cat-food")
      (strOfString "2024-06-01") = some 40 := by
  refine ⟨by decide, ?_⟩
  rw [getCategorySpending_spec [txnJun15, txnJul01, txnJunIncome] (strOfString "cat-food")
    (strOfString "2024-06-01") 2024 6 (by decide)]
  have hfilter : [txnJun15, txnJul01, txnJunIncome].filter (fun t =>
      t.category_id == strOfString "cat-food" && t.type == TxnType.expense &&
      strLe (strOfString "2024-06-01") t.date &&
      strLt t.date
        (fmtDate (if 6 = 12 then 2024 + 1 else 2024) (if 6 = 12 then 1 else 6 + 1) 1)) =
      [txnJun15] := by decide
  rw [hfilter]
  norm_num [reduceAmounts, txnJun15]

/-- In a list where at most one element satisfies the predicate, any
satisfying member is the one `find?` returns. -/
theorem count_le_one_find?_unique {α : Type} (p : α → Bool) :
    ∀ (l : List α) (a : α), l.countP p ≤ 1 → l.find? p = some a →
      ∀ x ∈ l, p x = true → x = a := by
  intro l
  induction l with
  | nil => intro a _ hf; simp at hf
  | cons h t ih =>
    intro a hc hf x hx hpx
    cases hph : p h with
    | true =>
      rw [List.find?_cons_of_pos _ hph] at hf
      obtain rfl : h = a := by simpa using hf
      rcases List.mem_cons.mp hx with rfl | hxt
      · rfl
      · exfalso
        rw [List.countP_cons, hph] at hc
        have ht : t.countP p = 0 := by
          simpa using hc
        exact (List.countP_eq_zero.mp ht x hxt) hpx
    | false =>
      rw [List.find?_cons_of_neg _ (by simp [hph])] at hf
      rw [List.countP_cons, hph] at hc
      simp at hc
      rcases List.mem_cons.mp hx with rfl | hxt
      · rw [hph] at hpx; cases hpx
      · exact ih a hc hf x hxt hpx

/-- Mapping a function that preserves the category and month fields leaves
every pair's budget count unchanged. -/
theorem countP_pair_map (db : List Budget) (g : Budget → Budget)
    (hg : ∀ b, (g b).category_id = b.category_id ∧ (g b).month = b.month)
    (c m : Str) :
    (db.map g).countP (fun b => b.category_id == c && b.month == m) =
      db.countP (fun b => b.category_id == c && b.month == m) := by
  induction db with
  | nil => rfl
  | cons b bs ih =>
    simp only [List.map_cons, List.countP_cons, ih, (hg b).1, (hg b).2]

/-- How `setBudget` changes the number of budgets of an arbitrary
(category, month) pair: nothing changes when an existing row is updated,
and only the inserted pair gains one row otherwise. -/
theorem setBudget_countP (db : List Budget) (cid : Str) (a : ℚ)
    (month t i : Str) (c m : Str) :
    (setBudget db cid a month t i).countP
        (fun b => b.category_id == c && b.month == m) =
      db.countP (fun b => b.category_id == c && b.month == m) +
      (if (db.find? (fun b => b.category_id == cid && b.month == month)).isSome then 0
       else if (cid == c && month == m) = true then 1 else 0) := by
  unfold setBudget
  cases hf : db.find? (fun b => b.category_id == cid && b.month == month) with
  | some ex =>
    have hmap := countP_pair_map db
      (fun b => if b.id == ex.id then
        { b with limit_amount := a, updated_at := t } else b)
      (fun b => by by_cases hid : (b.id == ex.id) = true <;> simp [hid]) c m
    simp only [hf, Option.isSome_some, if_true, Nat.add_zero]
    exact hmap
  | none =>
    simp [hf, List.countP_append, List.countP_cons]

/-- `setBudget` preserves the at-most-one-budget-per-pair invariant. -/
theorem setBudget_preserves_unique (db : List Budget) (cid : Str) (a : ℚ)
    (month t i : Str)
    (hinv : ∀ c m : Str,
      db.countP (fun b => b.category_id == c && b.month == m) ≤ 1) :
    ∀ c m : Str,
      (setBudget db cid a month t i).countP
        (fun b => b.category_id == c && b.month == m) ≤ 1 := by
  intro c m
  rw [setBudget_countP]
  cases hf : db.find? (fun b => b.category_id == cid && b.month == month) with
  | some ex => simpa using hinv c m
  | none =>
    by_cases hcm : (cid == c && month == m) = true
    · obtain ⟨hc, hm⟩ : cid = c ∧ month = m := by
        simpa [Bool.and_eq_true, beq_iff_eq] using hcm
      have hzero : db.countP (fun b => b.category_id == c && b.month == m) = 0 := by
        rw [← hc, ← hm]
        exact List.countP_eq_zero.mpr (List.find?_eq_none.mp hf)
      simp [hzero, hcm]
    · simpa [hcm] using hinv c m

/-- After `setBudget`, exactly one budget carries the written pair. -/
theorem setBudget_count_one (db : List Budget) (cid : Str) (a : ℚ)
    (month t i : Str)
    (h : db.countP (fun b => b.category_id == cid && b.month == month) ≤ 1) :
    (setBudget db cid a month t i).countP
      (fun b => b.category_id == cid && b.month == month) = 1 := by
  rw [setBudget_countP]
  cases hf : db.find? (fun b => b.category_id == cid && b.month == month) with
  | some ex =>
    have hpex : (ex.category_id == cid && ex.month == month) = true := by
      have := List.find?_some hf
      simpa using this
    have hex : 0 < db.countP (fun b => b.category_id == cid && b.month == month) :=
      List.countP_pos_iff.mpr ⟨ex, List.mem_of_find?_eq_some hf, hpex⟩
    simp
    omega
  | none =>
    have hzero : db.countP (fun b => b.category_id == cid && b.month == month) = 0 :=
      List.countP_eq_zero.mpr (List.find?_eq_none.mp hf)
    simp [hzero]

/-- When exactly one budget carries the pair, `setBudget` leaves every
budget of the pair holding the newly written limit. -/
theorem setBudget_pair_limit (db : List Budget) (cid month : Str) (a : ℚ)
    (t i : Str)
    (h1 : db.countP (fun b => b.category_id == cid && b.month == month) = 1) :
    ∀ b ∈ setBudget db cid a month t i,
      (b.category_id == cid && b.month == month) = true → b.limit_amount = a := by
  have hex : ∃ x ∈ db, (x.category_id == cid && x.month == month) = true := by
    have : 0 < db.countP (fun b => b.category_id == cid && b.month == month) := by omega
    exact List.countP_pos_iff.mp this
  cases hf : db.find? (fun b => b.category_id == cid && b.month == month) with
  | none =>
    exfalso
    obtain ⟨x, hx, hpx⟩ := hex
    exact (List.find?_eq_none.mp hf x hx) hpx
  | some ex =>
    intro b hb hbp
    unfold setBudget at hb
    rw [hf] at hb
    obtain ⟨b', hb', rfl⟩ := List.mem_map.mp hb
    by_cases hid : (b'.id == ex.id) = true
    · simp [hid]
    · have hbp' : (b'.category_id == cid && b'.month == month) = true := by
        simpa [hid] using hbp
      have : b' = ex :=
        count_le_one_find?_unique _ db ex (le_of_eq h1) hf b' hb' hbp'
      subst this
      simp at hid

/-- Claim C8: `setBudget` is an upsert keeping at most one budget per
(category, month) pair: one call preserves the invariant for every pair,
and two calls with different amounts on the same pair leave exactly one
budget of that pair, holding the amount of the second call. -/
theorem setBudget_upsert (db : List Budget) (cid month : Str) (a1 a2 : ℚ)
    (t1 t2 id1 id2 : Str)
    (hinv : ∀ c m : Str,
      db.countP (fun b => b.category_id == c && b.month == m) ≤ 1) :
    (∀ c m : Str,
      (setBudget db cid a1 month t1 id1).countP
        (fun b => b.category_id == c && b.month == m) ≤ 1) ∧
    (setBudget (setBudget db cid a1 month t1 id1) cid a2 month t2 id2).countP
      (fun b => b.category_id == cid && b.month == month) = 1 ∧
    (∀ b ∈ setBudget (setBudget db cid a1 month t1 id1) cid a2 month t2 id2,
      (b.category_id == cid && b.month == month) = true → b.limit_amount = a2) := by
  have h1 : (setBudget db cid a1 month t1 id1).countP
      (fun b => b.category_id == cid && b.month == month) = 1 :=
    setBudget_count_one db cid a1 month t1 id1 (hinv cid month)
  exact ⟨setBudget_preserves_unique db cid a1 month t1 id1 hinv,
    setBudget_count_one _ cid a2 month t2 id2 (le_of_eq h1),
    setBudget_pair_limit _ cid month a2 t2 id2 h1⟩

/-- Witness for C8 on the empty table: inserting 50 then updating to 75 for
the same pair leaves exactly one budget of the pair, holding 75. -/
theorem setBudget_upsert_witness :
    (∀ c m : Str,
      (setBudget [] (strOfString "cat-food") 50 (strOfString "2024-06-01")
          (strOfString "t1") (strOfString "b-1")).countP
        (fun b => b.category_id == c && b.month == m) ≤ 1) ∧
    (setBudget (setBudget [] (strOfString "cat-food") 50 (strOfString "2024-06-01")
        (strOfString "t1") (strOfString "b-1")) (strOfString "cat-food") 75
        (strOfString "2024-06-01") (strOfString "t2") (strOfString "b-2")).countP
      (fun b => b.category_id == strOfString "cat-food" &&
        b.month == strOfString "2024-06-01") = 1 ∧
    (∀ b ∈ setBudget (setBudget [] (strOfString "cat-food") 50
        (strOfString "2024-06-01") (strOfString "t1") (strOfString "b-1"))
        (strOfString "cat-food") 75 (strOfString "2024-06-01") (strOfString "t2")
        (strOfString "b-2"),
      (b.category_id == strOfString "cat-food" &&
        b.month == strOfString "2024-06-01") = true → b.limit_amount = 75) :=
  setBudget_upsert [] (strOfString "cat-food") (strOfString "2024-06-01") 50 75
    (strOfString "t1") (strOfString "t2") (strOfString "b-1") (strOfString "b-2")
    (fun c m => by simp)

/-- If any budget's spend fetch fails, the whole joined batch fails. -/
theorem budgetsWithSpending_error (spending : Str → Except StoreErr ℚ)
    (categories : List Category) :
    ∀ budgets : List Budget,
      (∃ b ∈ budgets, ∃ e, spending b.category_id = Except.error e) →
      ∃ e', budgetsWithSpending budgets spending categories = Except.error e' := by
  intro budgets
  induction budgets with
  | nil => rintro ⟨b, hb, _⟩; simp at hb
  | cons hd tl ih =>
    rintro ⟨b, hb, e, he⟩
    cases hsp : spending hd.category_id with
    | error e0 =>
      refine ⟨e0, ?_⟩
      rw [budgetsWithSpending, List.mapM_cons]
      simp [hsp, Except.map, Bind.bind, Except.bind]
    | ok v =>
      have hbtl : b ∈ tl := by
        rcases List.mem_cons.mp hb with rfl | hbt
        · rw [hsp] at he; cases he
        · exact hbt
      obtain ⟨e', he'⟩ := ih ⟨b, hbtl, e, he⟩
      refine ⟨e', ?_⟩
      rw [budgetsWithSpending] at he'
      simp only [Except.map] at he'
      rw [budgetsWithSpending, List.mapM_cons]
      simp only [hsp, Except.map, Bind.bind, Except.bind, pure, Except.pure]
      rw [he']

/-- Claim C9: the budget-list load is atomic on error — when the spend
fetch fails for some budget in the month's list, the whole join fails and
the displayed list stays exactly the previous one; no partial list covering
only some budgets is ever installed. -/
theorem loadBudgets_atomic (prev : List BudgetWithSpending) (budgets : List Budget)
    (spending : Str → Except StoreErr ℚ) (categories : List Category)
    (b : Budget) (e : StoreErr) (hb : b ∈ budgets)
    (he : spending b.category_id = Except.error e) :
    (∃ e', budgetsWithSpending budgets spending categories = Except.error e') ∧
    loadBudgets prev (Except.ok budgets) spending categories = prev := by
  obtain ⟨e', he'⟩ := budgetsWithSpending_error spending categories budgets ⟨b, hb, e, he⟩
  refine ⟨⟨e', he'⟩, ?_⟩
  simp [loadBudgets, he', Except.bind]

/-- Witness for C9: one budget whose spend fetch fails — the previously
displayed list (one row) survives unchanged. -/
theorem loadBudgets_atomic_witness :
    (∃ e', budgetsWithSpending [budFood] (fun _ => Except.error StoreErr.fail)
      [catFood] = Except.error e') ∧
    loadBudgets [sampleBws] (Except.ok [budFood]) (fun _ => Except.error StoreErr.fail)
      [catFood] = [sampleBws] :=
  loadBudgets_atomic [sampleBws] [budFood] (fun _ => Except.error StoreErr.fail)
    [catFood] budFood StoreErr.fail (by simp) rfl

end ExpenseTracker

